import Mathlib

/-!
Verification of the math-quiz coordination kernel.

Shallow embedding of the repository's server routes and client logic:
 - `src/app/api/answer/route.ts`  → `submitAnswer`, `claimQuestion`, `rotateAfterWin`
 - `src/app/api/join/route.ts`    → `joinNoReset`
 - the score-resetting join route → `joinReset`
 - the question route             → `getQuestion`, `findActiveLatest`
 - the leaderboard route          → `getLeaderboard`
 - `src/lib/questions.ts`         → `generateQuestion`, `randInt`
 - `src/app/page.tsx`             → `fetchWithRetry` (retry/backoff) and
                                    `netStep` (connection-health machine)

Mongo documents become records; single-document reads/writes become pure
functions over association lists keyed by numeric ids; `Date.now()` becomes an
explicit `Int` millisecond timestamp argument; `Math.random()` outcomes become
explicit `Nat` arguments fed through `randInt`'s modulus; the atomic
`findOneAndUpdate` conditional claim becomes `claimQuestion`, and concurrent
`POST /answer` requests are modelled as an interleaved step machine
(`stepProc`/`runBatch`) whose only question-writing step is that claim.
-/

/-- A Question document (`models.ts`): `text`, `answer`, `isActive`,
nullable `winnerId`/`winnerName`, and the `createdAt` timestamp (ms). -/
structure QuestionRec where
  text : String
  answer : Int
  isActive : Bool
  winnerId : Option Nat
  winnerName : Option String
  createdAt : Int
deriving DecidableEq, Repr

/-- A Player document (`models.ts`): unique `username`, `score` (session
counter), `highScore`. -/
structure PlayerRec where
  username : String
  score : Nat
  highScore : Nat
deriving DecidableEq, Repr

/-- Documents keyed by their `_id`. -/
abbrev Table (α : Type) := List (Nat × α)

/-- `findById`: the document with the given id, if any. -/
def lookupId {α : Type} (tbl : Table α) (i : Nat) : Option α :=
  (tbl.find? (fun e => e.1 == i)).map (fun e => e.2)

/-- `findByIdAndUpdate`: apply `f` to the document with the given id
(ids are unique, so mapping over the table updates at most one document). -/
def updateId {α : Type} (tbl : Table α) (i : Nat) (f : α → α) : Table α :=
  tbl.map (fun e => if e.1 == i then (e.1, f e.2) else e)

/-- The whole stored state: the players and questions collections. -/
structure DB where
  players : Table PlayerRec
  questions : Table QuestionRec
deriving DecidableEq, Repr

/-- The atomic conditional claim of `answer/route.ts`:
`Question.findOneAndUpdate({ _id, winnerId: null, isActive: true },
{ winnerId, winnerName })` on the already-located question. `some` is the
updated document (`new: true`); `none` means the filter no longer matched. -/
def claimQuestion (pid : Nat) (uname : String) (q : QuestionRec) : Option QuestionRec :=
  if q.winnerId = none ∧ q.isActive = true then
    some { q with winnerId := some pid, winnerName := some uname }
  else none

/-- The outcome of one `POST /answer` request, every branch of the handler:
the two 400 validations collapse into `badRequest`, the two 404s are
`questionNotFound` and `playerNotFound`, and the `{correct, won, message}`
replies are the remaining five constructors. -/
inductive AnswerOutcome
  | badRequest
  | questionNotFound
  | inactive
  | alreadyWon
  | wrongAnswer
  | playerNotFound
  | tooLate
  | win
deriving DecidableEq, Repr

/-- `POST /answer` (`answer/route.ts`), run to completion with no concurrent
writer. Inputs are `Option`s: `none` models a missing field or (for the
answer) a non-numeric value, both rejected with 400 before any read. The
checks run in the handler's order: question lookup, `isActive`, `winnerId`,
answer comparison, player lookup, then the atomic claim; a successful claim
also performs the `$inc: { score: 1 }` on the player. The 3-second delayed
rotation is the separate `rotateAfterWin`. -/
def submitAnswer (playerId? questionId? : Option Nat) (answer? : Option Int)
    (db : DB) : DB × AnswerOutcome :=
  match playerId?, questionId?, answer? with
  | some playerId, some questionId, some ans =>
    match lookupId db.questions questionId with
    | none => (db, AnswerOutcome.questionNotFound)
    | some q =>
      if q.isActive = false then (db, AnswerOutcome.inactive)
      else if q.winnerId ≠ none then (db, AnswerOutcome.alreadyWon)
      else if ans ≠ q.answer then (db, AnswerOutcome.wrongAnswer)
      else
        match lookupId db.players playerId with
        | none => (db, AnswerOutcome.playerNotFound)
        | some player =>
          match claimQuestion playerId player.username q with
          | none => (db, AnswerOutcome.tooLate)
          | some q2 =>
            ({ players := updateId db.players playerId
                 (fun pl => { pl with score := pl.score + 1 }),
               questions := updateId db.questions questionId (fun _ => q2) },
             AnswerOutcome.win)
  | _, _, _ => (db, AnswerOutcome.badRequest)

/-- A `{text, answer}` pair from the question generator. -/
structure GeneratedQuestion where
  text : String
  answer : Int
deriving DecidableEq, Repr

/-- The `setTimeout` body of the win path: deactivate the won question and
create the next one. `freshId` is the id Mongo assigns to the new document,
`gq` the generator's output, `now` the creation timestamp. -/
def rotateAfterWin (questionId freshId : Nat) (gq : GeneratedQuestion) (now : Int)
    (db : DB) : DB :=
  { db with
      questions :=
        updateId db.questions questionId (fun q => { q with isActive := false })
          ++ [(freshId, ⟨gq.text, gq.answer, true, none, none, now⟩)] }

/-- A `POST /join` response: 400 on a blank username, otherwise
`{playerId, username, score}` with `highScore` present only in the
score-resetting variant of the route. -/
inductive JoinResult
  | error400
  | ok (playerId : Nat) (username : String) (score : Nat) (highScore : Option Nat)
deriving DecidableEq, Repr

/-- Leading and trailing whitespace stripped from a character list
(JavaScript `trim()`), written structurally so it evaluates. -/
def trimChars (cs : List Char) : List Char :=
  ((cs.dropWhile Char.isWhitespace).reverse.dropWhile Char.isWhitespace).reverse

/-- `username.trim()`. -/
def strTrim (s : String) : String := String.mk (trimChars s.data)

/-- The username actually stored: trimmed and capped at 20 characters
(`username.trim().substring(0, 20)`). -/
def trimmedName (u : String) : String := String.mk ((strTrim u).data.take 20)

/-- `POST /join` as in `src/app/api/join/route.ts`: find the player by
trimmed username; if present, return it unchanged (no score reset); if
absent, create it with `score: 0` (schema default `highScore: 0`). The
response carries no `highScore` field. -/
def joinNoReset (username? : Option String) (freshId : Nat) (players : Table PlayerRec) :
    Table PlayerRec × JoinResult :=
  match username? with
  | none => (players, JoinResult.error400)
  | some u =>
    if (strTrim u).length = 0 then (players, JoinResult.error400)
    else
      let t := trimmedName u
      match players.find? (fun e => e.2.username == t) with
      | some (pid, p) => (players, JoinResult.ok pid p.username p.score none)
      | none =>
        (players ++ [(freshId, ⟨t, 0, 0⟩)], JoinResult.ok freshId t 0 none)

/-- The score-resetting `POST /join` variant: an existing player's `score`
is set to 0 and saved (`highScore` persists); a new player is created with
`score: 0, highScore: 0`. The response carries `highScore`. -/
def joinReset (username? : Option String) (freshId : Nat) (players : Table PlayerRec) :
    Table PlayerRec × JoinResult :=
  match username? with
  | none => (players, JoinResult.error400)
  | some u =>
    if (strTrim u).length = 0 then (players, JoinResult.error400)
    else
      let t := trimmedName u
      match players.find? (fun e => e.2.username == t) with
      | some (pid, p) =>
        (updateId players pid (fun pl => { pl with score := 0 }),
         JoinResult.ok pid p.username 0 (some p.highScore))
      | none =>
        (players ++ [(freshId, ⟨t, 0, 0⟩)], JoinResult.ok freshId t 0 (some 0))

/-- `QUESTION_TIMEOUT_MS` of the question route. -/
def QUESTION_TIMEOUT_MS : Int := 60000

/-- One step of scanning for the most recent active question: keep the
candidate with the larger `createdAt` (the earlier one on ties). -/
def pickLater (acc : Option (Nat × QuestionRec)) (e : Nat × QuestionRec) :
    Option (Nat × QuestionRec) :=
  match acc with
  | none => some e
  | some b => if b.2.createdAt < e.2.createdAt then some e else acc

/-- `Question.findOne({ isActive: true }).sort({ createdAt: -1 })`: among the
active questions, the first one of maximal `createdAt` (stable order on ties). -/
def findActiveLatest (qs : Table QuestionRec) : Option (Nat × QuestionRec) :=
  (qs.filter (fun e => e.2.isActive)).foldl pickLater none

/-- Stable insertion into a score-descending list: the new entry goes after
every entry with a score at least as large. -/
def insertByScore (e : Nat × PlayerRec) : Table PlayerRec → Table PlayerRec
  | [] => [e]
  | x :: xs =>
    if x.2.score < e.2.score then e :: x :: xs else x :: insertByScore e xs

/-- Players sorted by `score` descending (stable), truncated to `n`:
`Player.find({}).sort({ score: -1 }).limit(n)`. -/
def topByScore (players : Table PlayerRec) (n : Nat) : Table PlayerRec :=
  (players.foldr insertByScore []).take n

/-- The `GET /question` response body. -/
structure Snapshot where
  questionId : Nat
  text : String
  winnerId : Option Nat
  winnerName : Option String
  remainingMs : Int
  leaderboard : Table PlayerRec
deriving DecidableEq, Repr

/-- The response built from the question the handler ends up with:
`remainingMs = max(0, QUESTION_TIMEOUT_MS - (now - createdAt))`. -/
def mkSnapshot (qid : Nat) (q : QuestionRec) (now : Int) (players : Table PlayerRec) :
    Snapshot :=
  { questionId := qid, text := q.text, winnerId := q.winnerId,
    winnerName := q.winnerName,
    remainingMs := max 0 (QUESTION_TIMEOUT_MS - (now - q.createdAt)),
    leaderboard := topByScore players 10 }

/-- `GET /question`: find the newest active question; if none, create one
from `gq` with id `freshId`; if the one found has **no winner** and is older
than the timeout (strict `Date.now() - createdAt > QUESTION_TIMEOUT_MS`),
retire it and create a successor; otherwise leave it. Returns the updated
state and the snapshot of the question served. -/
def getQuestion (now : Int) (freshId : Nat) (gq : GeneratedQuestion) (db : DB) :
    DB × Snapshot :=
  match findActiveLatest db.questions with
  | none =>
    let nq : QuestionRec := ⟨gq.text, gq.answer, true, none, none, now⟩
    ({ db with questions := db.questions ++ [(freshId, nq)] },
     mkSnapshot freshId nq now db.players)
  | some (qid, q) =>
    if q.winnerId = none ∧ now - q.createdAt > QUESTION_TIMEOUT_MS then
      let nq : QuestionRec := ⟨gq.text, gq.answer, true, none, none, now⟩
      ({ db with
           questions :=
             updateId db.questions qid (fun qq => { qq with isActive := false })
               ++ [(freshId, nq)] },
       mkSnapshot freshId nq now db.players)
    else (db, mkSnapshot qid q now db.players)

/-- `GET /leaderboard`: a pure read; the state is returned untouched. -/
def getLeaderboard (db : DB) : DB × Table PlayerRec :=
  (db, topByScore db.players 10)

/-! ### Client network utilities (`src/app/page.tsx`) -/

/-- The per-attempt abort timeout of `fetchWithRetry` (ms). -/
def ATTEMPT_TIMEOUT_MS : Nat := 8000

/-- `maxRetries` passed for the `/api/question` poll call. -/
def pollMaxRetries : Nat := 1

/-- `baseDelay` passed for the `/api/question` poll call (ms). -/
def pollBaseDelay : Nat := 300

/-- `maxRetries` passed for the `/api/answer` submission call. -/
def answerMaxRetries : Nat := 2

/-- `baseDelay` passed for the `/api/answer` submission call (ms). -/
def answerBaseDelay : Nat := 300

/-- Default `maxRetries` of `fetchWithRetry`. -/
def defaultMaxRetries : Nat := 3

/-- Default `baseDelay` of `fetchWithRetry` (ms). -/
def defaultBaseDelay : Nat := 500

/-- What one run of `fetchWithRetry` did: how many attempts it made, the
backoff waits (ms) it slept between them, and whether some attempt succeeded
(`false` means the loop exhausted and the last error was thrown). -/
structure RetryTrace where
  attempts : Nat
  delays : List Nat
  success : Bool
deriving DecidableEq, Repr

/-- The loop body of `fetchWithRetry` from attempt number `attempt` with
`remaining` further attempts allowed after this one (`remaining =
maxRetries - attempt`); `ok i` tells whether attempt `i` succeeds. On a
failure with attempts remaining it sleeps `baseDelay * 2 ^ attempt` and
retries. -/
def retryAux (baseDelay : Nat) (ok : Nat → Bool) (attempt : Nat) :
    Nat → RetryTrace
  | 0 => if ok attempt then ⟨1, [], true⟩ else ⟨1, [], false⟩
  | r + 1 =>
    if ok attempt then ⟨1, [], true⟩
    else
      let t := retryAux baseDelay ok (attempt + 1) r
      ⟨t.attempts + 1, baseDelay * 2 ^ attempt :: t.delays, t.success⟩

/-- `fetchWithRetry(url, options, maxRetries, baseDelay)`: the loop
`for (attempt = 0; attempt <= maxRetries; attempt++)` as a trace. -/
def fetchWithRetry (maxRetries baseDelay : Nat) (ok : Nat → Bool) : RetryTrace :=
  retryAux baseDelay ok 0 maxRetries

/-- The client's connection-health classification. -/
inductive ConnStatus
  | connected
  | reconnecting
  | offline
deriving DecidableEq, Repr

/-- An event the health state reacts to: a poll outcome from
`fetchQuestion`, or a browser `offline`/`online` window event. -/
inductive NetEvent
  | pollSuccess
  | pollFailure
  | browserOffline
  | browserOnline
deriving DecidableEq, Repr

/-- The client network-health state: `consecutiveFailures.current`,
`connectionStatus`, and `pollIntervalRef.current` (ms). -/
structure ClientNet where
  failures : Nat
  status : ConnStatus
  interval : Nat
deriving DecidableEq, Repr

/-- The initial client state: 0 failures, connected, 1500 ms polling. -/
def initClientNet : ClientNet := ⟨0, ConnStatus.connected, 1500⟩

/-- One event of the health machine, exactly as `page.tsx` handles it:
a successful poll resets everything **only when `failures > 0`**; a failed
poll increments `failures` and downgrades at the `≥ 5` / `≥ 2` thresholds
(below 2 nothing else changes); the browser `offline` event sets only the
status; the browser `online` event resets everything. -/
def netStep (s : ClientNet) : NetEvent → ClientNet
  | NetEvent.pollSuccess =>
    if 0 < s.failures then ⟨0, ConnStatus.connected, 1500⟩ else s
  | NetEvent.pollFailure =>
    let f := s.failures + 1
    if 5 ≤ f then ⟨f, ConnStatus.offline, 10000⟩
    else if 2 ≤ f then ⟨f, ConnStatus.reconnecting, 4000⟩
    else ⟨f, s.status, s.interval⟩
  | NetEvent.browserOffline => { s with status := ConnStatus.offline }
  | NetEvent.browserOnline => ⟨0, ConnStatus.connected, 1500⟩

/-- The health state after a sequence of events. -/
def runNet (s : ClientNet) (es : List NetEvent) : ClientNet :=
  es.foldl netStep s

/-- A trace containing only poll outcomes (no browser window events). -/
def pollOnly (es : List NetEvent) : Prop :=
  ∀ e ∈ es, e = NetEvent.pollSuccess ∨ e = NetEvent.pollFailure

instance (es : List NetEvent) : Decidable (pollOnly es) := by
  unfold pollOnly; infer_instance

/-- The failure-counter / status / interval linkage claimed by the spec:
`f = 0` or `f = 1` means connected at 1500 ms, `2 ≤ f < 5` reconnecting at
4000 ms, `f ≥ 5` offline at 10000 ms. -/
def healthLinkage (s : ClientNet) : Prop :=
  (s.failures = 0 → s.status = ConnStatus.connected ∧ s.interval = 1500) ∧
  (s.failures = 1 → s.status = ConnStatus.connected ∧ s.interval = 1500) ∧
  (2 ≤ s.failures → s.failures < 5 →
    s.status = ConnStatus.reconnecting ∧ s.interval = 4000) ∧
  (5 ≤ s.failures → s.status = ConnStatus.offline ∧ s.interval = 10000)

instance (s : ClientNet) : Decidable (healthLinkage s) := by
  unfold healthLinkage; infer_instance

/-! ### The question generator (`src/lib/questions.ts`) -/

/-- `randInt(min, max)` = `Math.floor(Math.random() * (max - min + 1)) + min`;
the random draw is made explicit as the `Nat` `r`, reduced into the
`[0, max - min]` window by the modulus. -/
def randInt (lo hi : Nat) (r : Nat) : Nat := lo + r % (hi - lo + 1)

/-- The four operators of the generator. -/
inductive QOp
  | add
  | sub
  | mul
  | div
deriving DecidableEq, Repr

/-- `operators[Math.floor(Math.random() * 4)]`, the draw made explicit. -/
def opOf (r : Nat) : QOp :=
  match r % 4 with
  | 0 => QOp.add
  | 1 => QOp.sub
  | 2 => QOp.mul
  | _ => QOp.div

/-- The operator glyph as it appears in the generated `text`. -/
def renderOp : QOp → String
  | QOp.add => " + "
  | QOp.sub => " − "
  | QOp.mul => " × "
  | QOp.div => " ÷ "

/-- The generated `text`: `` `${a} op ${b}` ``. -/
def renderText (op : QOp) (a b : Nat) : String :=
  toString a ++ renderOp op ++ toString b

/-- The `(op, a, b)` the generator's switch computes from its three random
draws: `+` takes both operands from `randInt(10, 99)`; `−` takes
`a = randInt(20, 99)` then `b = randInt(1, a)`; `×` takes both from
`randInt(2, 12)`; `÷` draws `b` and the quotient from `randInt(2, 12)` and
sets `a = b * quotient`. -/
def genParts (opR r1 r2 : Nat) : QOp × Nat × Nat :=
  match opOf opR with
  | QOp.add => (QOp.add, randInt 10 99 r1, randInt 10 99 r2)
  | QOp.sub =>
    let a := randInt 20 99 r1
    (QOp.sub, a, randInt 1 a r2)
  | QOp.mul => (QOp.mul, randInt 2 12 r1, randInt 2 12 r2)
  | QOp.div =>
    let b := randInt 2 12 r1
    let ans := randInt 2 12 r2
    (QOp.div, b * ans, b)

/-- The exact arithmetic value of the rendered expression (`÷` is exact on
the generator's outputs because it constructs `a` as a multiple of `b`). -/
def evalOp (op : QOp) (a b : Nat) : Int :=
  match op with
  | QOp.add => (a : Int) + b
  | QOp.sub => (a : Int) - b
  | QOp.mul => (a : Int) * b
  | QOp.div => (a : Int) / b

/-- `generateQuestion()` with its random draws explicit: the switch of
`questions.ts`, producing `{text, answer}`. -/
def generateQuestion (opR r1 r2 : Nat) : GeneratedQuestion :=
  match opOf opR with
  | QOp.add =>
    let a := randInt 10 99 r1
    let b := randInt 10 99 r2
    ⟨renderText QOp.add a b, (a : Int) + b⟩
  | QOp.sub =>
    let a := randInt 20 99 r1
    let b := randInt 1 a r2
    ⟨renderText QOp.sub a b, (a : Int) - b⟩
  | QOp.mul =>
    let a := randInt 2 12 r1
    let b := randInt 2 12 r2
    ⟨renderText QOp.mul a b, (a : Int) * b⟩
  | QOp.div =>
    let b := randInt 2 12 r1
    let ans := randInt 2 12 r2
    ⟨renderText QOp.div (b * ans) b, (ans : Int)⟩

/-! ### Concurrent `POST /answer` requests as an interleaved step machine

Each in-flight request is a process advancing through the handler's atomic
storage operations: the initial read of the question (with its short-circuit
rejections folded in, since reads write nothing), the conditional-claim
`findOneAndUpdate`, and the `$inc` on the player. A schedule interleaves
these steps arbitrarily; the single store serializes each step. Processes
model requests that passed validation and whose player document exists. -/

/-- Where a request is in the handler: still to read the question, about to
run the atomic claim, about to increment the winner's score, or finished
with its outcome. -/
inductive SubPhase
  | start
  | toClaim
  | toInc
  | doneInactive
  | doneAlreadyWon
  | doneWrong
  | doneTooLate
  | doneWin
deriving DecidableEq, Repr

/-- One in-flight `POST /answer` request: the caller, its username (read
from the player document), the submitted value, and its progress. -/
structure SubProc where
  pid : Nat
  uname : String
  value : Int
  phase : SubPhase
deriving DecidableEq, Repr

/-- The shared store plus the in-flight requests: the contested question,
the player scores, and the processes. -/
structure BatchState where
  q : QuestionRec
  scores : Nat → Nat
  procs : List SubProc

/-- `true` exactly for a process that has won: its claim succeeded
(`toInc`) or it also finished (`doneWin`). -/
def winnerish (ph : SubPhase) : Bool :=
  match ph with
  | SubPhase.toInc => true
  | SubPhase.doneWin => true
  | _ => false

/-- `true` exactly for a finished winning process. -/
def isDoneWin (pr : SubProc) : Bool :=
  match pr.phase with
  | SubPhase.doneWin => true
  | _ => false

/-- `true` for a finished winning process belonging to player `p`. -/
def isDoneWinFor (p : Nat) (pr : SubProc) : Bool :=
  isDoneWin pr && decide (pr.pid = p)

/-- One atomic step of process `i`: the read with its short-circuit
rejections (inactive / already won / wrong answer, in the handler's order),
the conditional claim (`claimQuestion`; failure is "too late"), or the
score increment. Out-of-range indices and finished processes do nothing. -/
def stepProc (st : BatchState) (i : Nat) : BatchState :=
  match st.procs[i]? with
  | none => st
  | some pr =>
    match pr.phase with
    | SubPhase.start =>
      if st.q.isActive = false then
        { st with procs := st.procs.set i { pr with phase := SubPhase.doneInactive } }
      else if st.q.winnerId ≠ none then
        { st with procs := st.procs.set i { pr with phase := SubPhase.doneAlreadyWon } }
      else if pr.value ≠ st.q.answer then
        { st with procs := st.procs.set i { pr with phase := SubPhase.doneWrong } }
      else
        { st with procs := st.procs.set i { pr with phase := SubPhase.toClaim } }
    | SubPhase.toClaim =>
      match claimQuestion pr.pid pr.uname st.q with
      | some q2 =>
        { st with q := q2, procs := st.procs.set i { pr with phase := SubPhase.toInc } }
      | none =>
        { st with procs := st.procs.set i { pr with phase := SubPhase.doneTooLate } }
    | SubPhase.toInc =>
      { st with
          scores := fun p => if p = pr.pid then st.scores p + 1 else st.scores p,
          procs := st.procs.set i { pr with phase := SubPhase.doneWin } }
    | _ => st

/-- Run the machine under a schedule (a list of process indices). -/
def runBatch (st : BatchState) (sched : List Nat) : BatchState :=
  sched.foldl stepProc st

/-- `winnerish` as a predicate on whole processes, for counting. -/
def winnerishB (pr : SubProc) : Bool := winnerish pr.phase

/-- The inductive invariant of the batch machine: every process that has
claimed the win is the recorded winner; at most one process has claimed;
none has while the question is unclaimed; and every score is its initial
value plus the finished wins credited to that player. -/
def BatchInv (s0 : Nat → Nat) (st : BatchState) : Prop :=
  (∀ pr ∈ st.procs, winnerish pr.phase = true → st.q.winnerId = some pr.pid) ∧
  st.procs.countP winnerishB ≤ 1 ∧
  (st.q.winnerId = none → st.procs.countP winnerishB = 0) ∧
  (∀ p, st.scores p = s0 p + st.procs.countP (isDoneWinFor p))

/-! ### Association-list and counting helper lemmas -/

theorem countP_set_of_get {α : Type} (p : α → Bool) (l : List α) :
    ∀ (i : Nat) (a b : α), l[i]? = some a →
      (l.set i b).countP p + (if p a then 1 else 0) =
        l.countP p + (if p b then 1 else 0) := by
  induction l with
  | nil => intro i a b h; simp at h
  | cons x xs ih =>
    intro i a b h
    cases i with
    | zero =>
      simp only [List.getElem?_cons_zero, Option.some.injEq] at h
      subst h
      simp only [List.set_cons_zero, List.countP_cons]
      omega
    | succ n =>
      simp only [List.getElem?_cons_succ] at h
      have h2 := ih n a b h
      simp only [List.set_cons_succ, List.countP_cons]
      omega

theorem lookupId_cons_self {α : Type} (k : Nat) (v : α) (tl : Table α) :
    lookupId ((k, v) :: tl) k = some v := by
  unfold lookupId
  rw [List.find?_cons_of_pos _ (by simp)]
  rfl

theorem lookupId_cons_ne {α : Type} (k i : Nat) (v : α) (tl : Table α) (h : k ≠ i) :
    lookupId ((k, v) :: tl) i = lookupId tl i := by
  unfold lookupId
  rw [List.find?_cons_of_neg _ (by simp [h])]

theorem lookupId_updateId {α : Type} (tbl : Table α) (j : Nat) (f : α → α) (i : Nat) :
    lookupId (updateId tbl j f) i =
      if j = i then (lookupId tbl i).map f else lookupId tbl i := by
  induction tbl with
  | nil => by_cases h : j = i <;> simp [lookupId, updateId, h]
  | cons e tl ih =>
    obtain ⟨k, v⟩ := e
    by_cases hkj : k = j
    · subst hkj
      have hu : updateId ((k, v) :: tl) k f = (k, f v) :: updateId tl k f := by
        simp [updateId]
      rw [hu]
      by_cases hki : k = i
      · subst hki
        rw [lookupId_cons_self, lookupId_cons_self, if_pos rfl]
        rfl
      · rw [lookupId_cons_ne _ _ _ _ hki, lookupId_cons_ne _ _ _ _ hki, ih]
    · have hu : updateId ((k, v) :: tl) j f = (k, v) :: updateId tl j f := by
        simp [updateId, hkj]
      rw [hu]
      by_cases hki : k = i
      · subst hki
        have hji : j ≠ k := fun h => hkj h.symm
        rw [lookupId_cons_self, lookupId_cons_self, if_neg hji]
      · rw [lookupId_cons_ne _ _ _ _ hki, lookupId_cons_ne _ _ _ _ hki, ih]

theorem lookupId_append {α : Type} (t1 t2 : Table α) (i : Nat) :
    lookupId (t1 ++ t2) i = (lookupId t1 i).or (lookupId t2 i) := by
  unfold lookupId
  rw [List.find?_append]
  cases List.find? (fun e => e.1 == i) t1 <;> simp

/-! ### C10 — the generator's answers are exact and in range -/

/-- C10: every generated question's `answer` is the exact arithmetic
value of its rendered `text` expression and is a non-negative integer:
addition operands lie in [10, 99]; subtraction picks `b ≤ a` so the result
is ≥ 0; multiplication operands lie in [2, 12]; division builds
`a = b * answer`, so the quotient is an exact integer in [2, 12]. -/
theorem generateQuestion_exact_answer (opR r1 r2 : Nat) (op : QOp) (a b : Nat)
    (h : genParts opR r1 r2 = (op, a, b)) :
    generateQuestion opR r1 r2 = ⟨renderText op a b, evalOp op a b⟩ ∧
    0 ≤ evalOp op a b ∧
    (op = QOp.add → 10 ≤ a ∧ a ≤ 99 ∧ 10 ≤ b ∧ b ≤ 99) ∧
    (op = QOp.sub → b ≤ a ∧ 20 ≤ a ∧ a ≤ 99) ∧
    (op = QOp.mul → 2 ≤ a ∧ a ≤ 12 ∧ 2 ≤ b ∧ b ≤ 12) ∧
    (op = QOp.div → (b : Int) ∣ (a : Int) ∧ 2 ≤ b ∧ b ≤ 12 ∧
      (2 : Int) ≤ evalOp op a b ∧ evalOp op a b ≤ 12 ∧
      (b : Int) * evalOp op a b = (a : Int)) := by
  have h4 : opR % 4 = 0 ∨ opR % 4 = 1 ∨ opR % 4 = 2 ∨ opR % 4 = 3 := by omega
  rcases h4 with h4 | h4 | h4 | h4 <;>
    simp only [genParts, generateQuestion, opOf, h4, randInt] at h ⊢ <;>
    rw [Prod.mk.injEq, Prod.mk.injEq] at h <;>
    obtain ⟨rfl, rfl, rfl⟩ := h
  · -- addition
    have m1 : r1 % (99 - 10 + 1) < 99 - 10 + 1 := Nat.mod_lt _ (by norm_num)
    have m2 : r2 % (99 - 10 + 1) < 99 - 10 + 1 := Nat.mod_lt _ (by norm_num)
    refine ⟨rfl, by simp only [evalOp]; omega, fun _ => by omega, ?_, ?_, ?_⟩ <;>
      exact fun hcon => QOp.noConfusion hcon
  · -- subtraction
    have m1 : r1 % (99 - 20 + 1) < 99 - 20 + 1 := Nat.mod_lt _ (by norm_num)
    have m2 : r2 % (20 + r1 % (99 - 20 + 1) - 1 + 1) <
        20 + r1 % (99 - 20 + 1) - 1 + 1 := Nat.mod_lt _ (by omega)
    refine ⟨rfl, by simp only [evalOp]; omega, ?_, fun _ => by omega, ?_, ?_⟩ <;>
      exact fun hcon => QOp.noConfusion hcon
  · -- multiplication
    have m1 : r1 % (12 - 2 + 1) < 12 - 2 + 1 := Nat.mod_lt _ (by norm_num)
    have m2 : r2 % (12 - 2 + 1) < 12 - 2 + 1 := Nat.mod_lt _ (by norm_num)
    refine ⟨rfl, by simp only [evalOp]; positivity, ?_, ?_,
      fun _ => by omega, ?_⟩ <;> exact fun hcon => QOp.noConfusion hcon
  · -- division
    have m1 : r1 % (12 - 2 + 1) < 12 - 2 + 1 := Nat.mod_lt _ (by norm_num)
    have m2 : r2 % (12 - 2 + 1) < 12 - 2 + 1 := Nat.mod_lt _ (by norm_num)
    have hb0 : ((2 + r1 % (12 - 2 + 1) : Nat) : Int) ≠ 0 := by omega
    have hdiv : evalOp QOp.div ((2 + r1 % (12 - 2 + 1)) * (2 + r2 % (12 - 2 + 1)))
        (2 + r1 % (12 - 2 + 1)) = ((2 + r2 % (12 - 2 + 1) : Nat) : Int) := by
      simp only [evalOp]
      push_cast
      exact Int.mul_ediv_cancel_left _ hb0
    refine ⟨?_, by rw [hdiv]; omega, fun hcon => QOp.noConfusion hcon,
      fun hcon => QOp.noConfusion hcon, fun hcon => QOp.noConfusion hcon,
      fun _ => ?_⟩
    · rw [hdiv]
    · refine ⟨⟨((2 + r2 % (12 - 2 + 1) : Nat) : Int), by push_cast; ring⟩,
        by omega, by omega, ?_, ?_, ?_⟩
      · rw [hdiv]; omega
      · rw [hdiv]; omega
      · rw [hdiv]; push_cast; ring

/-- Witness for C10 at the concrete draws (3, 4, 5): a division question
`42 ÷ 6` with answer 7. -/
theorem generateQuestion_exact_answer_witness :
    generateQuestion 3 4 5 = ⟨renderText QOp.div 42 6, evalOp QOp.div 42 6⟩ ∧
    0 ≤ evalOp QOp.div 42 6 ∧
    (QOp.div = QOp.add → 10 ≤ 42 ∧ 42 ≤ 99 ∧ 10 ≤ 6 ∧ 6 ≤ 99) ∧
    (QOp.div = QOp.sub → 6 ≤ 42 ∧ 20 ≤ 42 ∧ 42 ≤ 99) ∧
    (QOp.div = QOp.mul → 2 ≤ 42 ∧ 42 ≤ 12 ∧ 2 ≤ 6 ∧ 6 ≤ 12) ∧
    (QOp.div = QOp.div → ((6 : Nat) : Int) ∣ ((42 : Nat) : Int) ∧ 2 ≤ 6 ∧ 6 ≤ 12 ∧
      (2 : Int) ≤ evalOp QOp.div 42 6 ∧ evalOp QOp.div 42 6 ≤ 12 ∧
      ((6 : Nat) : Int) * evalOp QOp.div 42 6 = ((42 : Nat) : Int)) :=
  generateQuestion_exact_answer 3 4 5 QOp.div 42 6 (by decide)

/-! ### C7 — the retry wrapper's attempt budget and backoff -/

theorem retryAux_spec (baseDelay : Nat) (ok : Nat → Bool) :
    ∀ (r a : Nat),
      1 ≤ (retryAux baseDelay ok a r).attempts ∧
      (retryAux baseDelay ok a r).attempts ≤ r + 1 ∧
      (retryAux baseDelay ok a r).delays =
        (List.range ((retryAux baseDelay ok a r).attempts - 1)).map
          (fun i => baseDelay * 2 ^ (a + i)) ∧
      ((∀ i, i ≤ r → ok (a + i) = false) →
        retryAux baseDelay ok a r =
          ⟨r + 1, (List.range r).map (fun i => baseDelay * 2 ^ (a + i)), false⟩) := by
  intro r
  induction r with
  | zero =>
    intro a
    by_cases hok : ok a = true
    · have h0 : retryAux baseDelay ok a 0 = ⟨1, [], true⟩ := by
        simp [retryAux, hok]
      rw [h0]
      refine ⟨by simp, by simp, by simp, fun hall => ?_⟩
      exact absurd (hall 0 (Nat.le_refl 0)) (by simp [hok])
    · have hok2 : ok a = false := by simpa using hok
      have h0 : retryAux baseDelay ok a 0 = ⟨1, [], false⟩ := by
        simp [retryAux, hok2]
      rw [h0]
      exact ⟨by simp, by simp, by simp, fun _ => by simp⟩
  | succ n ih =>
    intro a
    by_cases hok : ok a = true
    · have h0 : retryAux baseDelay ok a (n + 1) = ⟨1, [], true⟩ := by
        simp [retryAux, hok]
      rw [h0]
      refine ⟨by simp, by simp, by simp, fun hall => ?_⟩
      exact absurd (hall 0 (by omega)) (by simp [hok])
    · have hok2 : ok a = false := by simpa using hok
      obtain ⟨ih1, ih2, ih3, ih4⟩ := ih (a + 1)
      have hred : retryAux baseDelay ok a (n + 1) =
          ⟨(retryAux baseDelay ok (a + 1) n).attempts + 1,
           baseDelay * 2 ^ a :: (retryAux baseDelay ok (a + 1) n).delays,
           (retryAux baseDelay ok (a + 1) n).success⟩ := by
        simp [retryAux, hok2]
      have hshift : ∀ k : Nat,
          baseDelay * 2 ^ a ::
              (List.range k).map (fun i => baseDelay * 2 ^ (a + 1 + i)) =
            (List.range (k + 1)).map (fun i => baseDelay * 2 ^ (a + i)) := by
        intro k
        rw [List.range_succ_eq_map]
        simp only [List.map_cons, List.map_map]
        refine congrArg₂ _ (by ring_nf) ?_
        refine List.map_congr_left ?_
        intro i _
        simp only [Function.comp_apply]
        have hia : a + 1 + i = a + Nat.succ i := by omega
        rw [hia]
      refine ⟨?_, ?_, ?_, ?_⟩
      · rw [hred]
        show 1 ≤ (retryAux baseDelay ok (a + 1) n).attempts + 1
        omega
      · rw [hred]
        show (retryAux baseDelay ok (a + 1) n).attempts + 1 ≤ n + 1 + 1
        omega
      · rw [hred]
        show baseDelay * 2 ^ a :: (retryAux baseDelay ok (a + 1) n).delays =
          (List.range ((retryAux baseDelay ok (a + 1) n).attempts + 1 - 1)).map
            (fun i => baseDelay * 2 ^ (a + i))
        obtain ⟨k, hk⟩ : ∃ k, (retryAux baseDelay ok (a + 1) n).attempts = k + 1 :=
          ⟨(retryAux baseDelay ok (a + 1) n).attempts - 1, by omega⟩
        rw [ih3, hk]
        simp only [Nat.add_sub_cancel]
        exact hshift k
      · intro hall
        have hall2 : ∀ i, i ≤ n → ok (a + 1 + i) = false := by
          intro i hi
          have hia : a + 1 + i = a + (i + 1) := by omega
          rw [hia]
          exact hall (i + 1) (by omega)
        rw [hred, ih4 hall2]
        show RetryTrace.mk (n + 1 + 1)
            (baseDelay * 2 ^ a ::
              (List.range n).map (fun i => baseDelay * 2 ^ (a + 1 + i)))
            false = _
        rw [hshift n]

/-- C7 (amended): `fetchWithRetry` makes at most `maxRetries + 1`
attempts (the loop runs `attempt = 0 .. maxRetries` inclusive), sleeping
`baseDelay * 2 ^ attempt` after each failed non-final attempt; if every
attempt fails the trace ends unsuccessfully (the last error is rethrown to
the caller); the poll call site passes `maxRetries = 1, baseDelay = 300`,
the answer call site `maxRetries = 2, baseDelay = 300`, and each attempt is
bounded by the 8000 ms abort timeout. -/
theorem fetchWithRetry_retry_budget (maxRetries baseDelay : Nat) (ok : Nat → Bool) :
    (fetchWithRetry maxRetries baseDelay ok).attempts ≤ maxRetries + 1 ∧
    (fetchWithRetry maxRetries baseDelay ok).delays =
      (List.range ((fetchWithRetry maxRetries baseDelay ok).attempts - 1)).map
        (fun i => baseDelay * 2 ^ i) ∧
    ((∀ i, i ≤ maxRetries → ok i = false) →
      fetchWithRetry maxRetries baseDelay ok =
        ⟨maxRetries + 1, (List.range maxRetries).map (fun i => baseDelay * 2 ^ i),
         false⟩) ∧
    pollMaxRetries = 1 ∧ pollBaseDelay = 300 ∧
    answerMaxRetries = 2 ∧ answerBaseDelay = 300 ∧ ATTEMPT_TIMEOUT_MS = 8000 := by
  obtain ⟨h1, h2, h3, h4⟩ := retryAux_spec baseDelay ok maxRetries 0
  refine ⟨h2, ?_, ?_, rfl, rfl, rfl, rfl, rfl⟩
  · rw [show fetchWithRetry maxRetries baseDelay ok = retryAux baseDelay ok 0 maxRetries
        from rfl, h3]
    simp
  · intro hall
    rw [show fetchWithRetry maxRetries baseDelay ok = retryAux baseDelay ok 0 maxRetries
        from rfl, h4 (by simpa using hall)]
    simp

/-- C7 (counterexample): with the poll budget `maxRetries = 1` and every
attempt failing, the wrapper makes 2 attempts — more than the claimed
"at most `maxRetries` attempts per logical call". -/
theorem fetchWithRetry_two_attempts_when_maxRetries_one :
    fetchWithRetry 1 300 (fun _ => false) = ⟨2, [300], false⟩ ∧
    ¬(fetchWithRetry 1 300 (fun _ => false)).attempts ≤ 1 := by
  constructor <;> decide

/-! ### C6 — the connection-health state machine -/

theorem healthLinkage_mk (f : Nat) (st : ConnStatus) (iv : Nat) :
    healthLinkage ⟨f, st, iv⟩ ↔
      ((f = 0 → st = ConnStatus.connected ∧ iv = 1500) ∧
       (f = 1 → st = ConnStatus.connected ∧ iv = 1500) ∧
       (2 ≤ f → f < 5 → st = ConnStatus.reconnecting ∧ iv = 4000) ∧
       (5 ≤ f → st = ConnStatus.offline ∧ iv = 10000)) := Iff.rfl

theorem netStep_poll_preserves_linkage (s : ClientNet) (e : NetEvent)
    (hs : healthLinkage s)
    (he : e = NetEvent.pollSuccess ∨ e = NetEvent.pollFailure) :
    healthLinkage (netStep s e) := by
  obtain ⟨f, st, iv⟩ := s
  rw [healthLinkage_mk] at hs
  obtain ⟨h0, h1, h24, h5⟩ := hs
  rcases he with rfl | rfl
  · by_cases hf : 0 < f
    · have hr : netStep ⟨f, st, iv⟩ NetEvent.pollSuccess =
          ⟨0, ConnStatus.connected, 1500⟩ := by
        simp [netStep, hf]
      rw [hr, healthLinkage_mk]
      exact ⟨fun _ => ⟨rfl, rfl⟩, fun h => absurd h (by omega),
        fun h _ => absurd h (by omega), fun h => absurd h (by omega)⟩
    · have hr : netStep ⟨f, st, iv⟩ NetEvent.pollSuccess = ⟨f, st, iv⟩ := by
        simp [netStep, hf]
      rw [hr, healthLinkage_mk]
      exact ⟨h0, h1, h24, h5⟩
  · by_cases hf5 : 5 ≤ f + 1
    · have hr : netStep ⟨f, st, iv⟩ NetEvent.pollFailure =
          ⟨f + 1, ConnStatus.offline, 10000⟩ := by
        simp [netStep, hf5]
      rw [hr, healthLinkage_mk]
      exact ⟨fun h => absurd h (by omega), fun h => absurd h (by omega),
        fun _ h2 => absurd hf5 (by omega), fun _ => ⟨rfl, rfl⟩⟩
    · by_cases hf2 : 2 ≤ f + 1
      · have hr : netStep ⟨f, st, iv⟩ NetEvent.pollFailure =
            ⟨f + 1, ConnStatus.reconnecting, 4000⟩ := by
          simp [netStep, hf5, hf2]
        rw [hr, healthLinkage_mk]
        exact ⟨fun h => absurd h (by omega), fun h => absurd h (by omega),
          fun _ _ => ⟨rfl, rfl⟩, fun h => absurd h (by omega)⟩
      · have hr : netStep ⟨f, st, iv⟩ NetEvent.pollFailure = ⟨f + 1, st, iv⟩ := by
          simp [netStep, hf5, hf2]
        rw [hr, healthLinkage_mk]
        exact ⟨fun h => absurd h (by omega), fun _ => h0 (by omega),
          fun h _ => absurd h (by omega), fun h => absurd h (by omega)⟩

theorem netStep_reset_on_success (s : ClientNet) (hs : healthLinkage s) :
    netStep s NetEvent.pollSuccess = initClientNet := by
  obtain ⟨f, st, iv⟩ := s
  rw [healthLinkage_mk] at hs
  by_cases hf : 0 < f
  · simp [netStep, hf, initClientNet]
  · have hz : f = 0 := by omega
    obtain ⟨hc, hi⟩ := hs.1 hz
    subst hz; subst hc; subst hi
    simp [netStep, initClientNet]

theorem runNet_linkage (es : List NetEvent) :
    ∀ s : ClientNet, healthLinkage s → pollOnly es → healthLinkage (runNet s es) := by
  induction es with
  | nil => intro s hs _; exact hs
  | cons e tl ih =>
    intro s hs hp
    have he : e = NetEvent.pollSuccess ∨ e = NetEvent.pollFailure :=
      hp e (List.mem_cons_self e tl)
    have htl : pollOnly tl := fun x hx => hp x (List.mem_cons_of_mem _ hx)
    exact ih (netStep s e) (netStep_poll_preserves_linkage s e hs he) htl

/-- C6 (amended): along any trace of poll outcomes alone (no browser
`offline`/`online` window events), the machine maintains the claimed
linkage — `f = 0` or `f = 1` connected at 1500 ms (interval unchanged from
the connected state), `2 ≤ f < 5` reconnecting at 4000 ms, `f ≥ 5` offline
at 10000 ms — and a successful poll takes any reachable state back to
connected, `f = 0`, 1500 ms. (The code's reset is guarded by `f > 0`, which
coincides with a full reset on poll-only traces; a browser `offline` event
can break the linkage, see the counterexample.) -/
theorem pollLoop_health_linkage (es : List NetEvent) (hp : pollOnly es) :
    healthLinkage (runNet initClientNet es) ∧
    netStep (runNet initClientNet es) NetEvent.pollSuccess = initClientNet := by
  have hinit : healthLinkage initClientNet := by decide
  have hlink := runNet_linkage es initClientNet hinit hp
  exact ⟨hlink, netStep_reset_on_success _ hlink⟩

/-- Witness for C6 (amended): five consecutive failures reach
offline/10000 ms, and the next success resets to connected/1500 ms. -/
theorem pollLoop_health_linkage_witness :
    (healthLinkage (runNet initClientNet
      [NetEvent.pollFailure, NetEvent.pollFailure, NetEvent.pollFailure,
       NetEvent.pollFailure, NetEvent.pollFailure]) ∧
    netStep (runNet initClientNet
      [NetEvent.pollFailure, NetEvent.pollFailure, NetEvent.pollFailure,
       NetEvent.pollFailure, NetEvent.pollFailure]) NetEvent.pollSuccess =
      initClientNet) :=
  pollLoop_health_linkage
    [NetEvent.pollFailure, NetEvent.pollFailure, NetEvent.pollFailure,
     NetEvent.pollFailure, NetEvent.pollFailure] (by decide)

/-- C6 (counterexample): a browser `offline` event followed by a
successful poll leaves the state at `f = 0` with status `offline` — the
claimed linkage `f = 0 ⇒ connected` fails at the reschedule, and the
successful poll did not reset the status to `connected` (the code's reset
is guarded by `f > 0`). -/
theorem pollSuccess_after_browserOffline_stays_offline :
    (runNet initClientNet [NetEvent.browserOffline, NetEvent.pollSuccess]).failures = 0 ∧
    (runNet initClientNet
      [NetEvent.browserOffline, NetEvent.pollSuccess]).status ≠ ConnStatus.connected ∧
    (runNet initClientNet
      [NetEvent.browserOffline, NetEvent.pollSuccess]).interval = 1500 := by
  refine ⟨rfl, ?_, rfl⟩
  decide

/-! ### C2 — join semantics of the two route variants -/

/-- C2 (counterexample): the `src/app/api/join/route.ts` variant does
not reset an existing player's score on rejoin: joining as "alice", who has
score 5, leaves the table untouched and returns score 5, not 0. -/
theorem joinNoReset_keeps_existing_score :
    joinNoReset (some "alice") 7 [(1, ⟨"alice", 5, 9⟩)] =
      ([(1, ⟨"alice", 5, 9⟩)], JoinResult.ok 1 "alice" 5 none) ∧
    (5 : Nat) ≠ 0 := by
  constructor <;> decide

/-- C2 (amended): the score-resetting join variant has exactly the
claimed behavior — an existing player's `score` is reset to 0 with
`highScore` untouched, a new username creates a player with both at 0 —
while the `src/app/api/join/route.ts` variant leaves an existing player
entirely unchanged (no score reset) and creates new players the same way. -/
theorem join_semantics (u : String) (freshId1 freshId2 : Nat)
    (db1 db2 : Table PlayerRec) (pid : Nat) (p : PlayerRec)
    (hu : ¬(strTrim u).length = 0)
    (h1 : db1.find? (fun e => e.2.username == trimmedName u) = some (pid, p))
    (h2 : db2.find? (fun e => e.2.username == trimmedName u) = none) :
    joinReset (some u) freshId1 db1 =
      (updateId db1 pid (fun pl => { pl with score := 0 }),
       JoinResult.ok pid p.username 0 (some p.highScore)) ∧
    lookupId (joinReset (some u) freshId1 db1).1 pid =
      (lookupId db1 pid).map (fun pl => { pl with score := 0 }) ∧
    joinNoReset (some u) freshId1 db1 =
      (db1, JoinResult.ok pid p.username p.score none) ∧
    joinReset (some u) freshId2 db2 =
      (db2 ++ [(freshId2, ⟨trimmedName u, 0, 0⟩)],
       JoinResult.ok freshId2 (trimmedName u) 0 (some 0)) ∧
    joinNoReset (some u) freshId2 db2 =
      (db2 ++ [(freshId2, ⟨trimmedName u, 0, 0⟩)],
       JoinResult.ok freshId2 (trimmedName u) 0 none) := by
  refine ⟨?_, ?_, ?_, ?_, ?_⟩
  · simp [joinReset, hu, h1]
  · simp [joinReset, hu, h1, lookupId_updateId]
  · simp [joinNoReset, hu, h1]
  · simp [joinReset, hu, h2]
  · simp [joinNoReset, hu, h2]

/-- Witness for C2 (amended): "alice" rejoining a table where she has
score 5 / highScore 9, and joining an empty table. -/
theorem join_semantics_witness :
    (joinReset (some "alice") 7 [(1, ⟨"alice", 5, 9⟩)] =
      (updateId [(1, ⟨"alice", 5, 9⟩)] 1 (fun pl => { pl with score := 0 }),
       JoinResult.ok 1 "alice" 0 (some 9)) ∧
    lookupId (joinReset (some "alice") 7 [(1, ⟨"alice", 5, 9⟩)]).1 1 =
      (lookupId [(1, (⟨"alice", 5, 9⟩ : PlayerRec))] 1).map
        (fun pl => { pl with score := 0 }) ∧
    joinNoReset (some "alice") 7 [(1, ⟨"alice", 5, 9⟩)] =
      ([(1, ⟨"alice", 5, 9⟩)], JoinResult.ok 1 "alice" 5 none) ∧
    joinReset (some "alice") 8 [] =
      ([] ++ [(8, ⟨trimmedName "alice", 0, 0⟩)],
       JoinResult.ok 8 (trimmedName "alice") 0 (some 0)) ∧
    joinNoReset (some "alice") 8 [] =
      ([] ++ [(8, ⟨trimmedName "alice", 0, 0⟩)],
       JoinResult.ok 8 (trimmedName "alice") 0 none)) :=
  join_semantics "alice" 7 8 [(1, ⟨"alice", 5, 9⟩)] [] 1 ⟨"alice", 5, 9⟩
    (by decide) (by decide) (by decide)

/-! ### C3 and C5 — lazy rotation on `GET /question` -/

/-- C3 (counterexample): an active question whose winner was recorded
long ago (grace period long expired) is *not* rotated by a `GET /question`
inspection: the state is returned unchanged and the same won question is
served, because the rotation branch requires `!question.winnerId`. -/
theorem getQuestion_keeps_stale_won_question :
    getQuestion 1000000 7 ⟨"1 + 1", 2⟩
        ⟨[], [(1, ⟨"7 × 8", 56, true, some 2, some "B", 0⟩)]⟩ =
      (⟨[], [(1, ⟨"7 × 8", 56, true, some 2, some "B", 0⟩)]⟩,
       mkSnapshot 1 ⟨"7 × 8", 56, true, some 2, some "B", 0⟩ 1000000 []) ∧
    (1000000 : Int) - 0 > QUESTION_TIMEOUT_MS := by
  constructor <;> decide

/-- C3 (amended): `GET /question` never rotates a question that has a
winner, no matter how stale: whenever the newest active question has
`winnerId` set, the handler performs no write and serves that same
question, so a won question whose delayed rotation task never fired stays
active forever under inspection alone. -/
theorem getQuestion_never_rotates_won (now : Int) (freshId : Nat)
    (gq : GeneratedQuestion) (db : DB) (qid : Nat) (q : QuestionRec)
    (hfind : findActiveLatest db.questions = some (qid, q))
    (hwin : q.winnerId ≠ none) :
    getQuestion now freshId gq db = (db, mkSnapshot qid q now db.players) := by
  simp [getQuestion, hfind, hwin]

/-- Witness for C3 (amended): the stale won question of the counterexample
state is served unchanged. -/
theorem getQuestion_never_rotates_won_witness :
    getQuestion 1000000 7 ⟨"1 + 1", 2⟩
        ⟨[], [(1, ⟨"7 × 8", 56, true, some 2, some "B", 0⟩)]⟩ =
      (⟨[], [(1, ⟨"7 × 8", 56, true, some 2, some "B", 0⟩)]⟩,
       mkSnapshot 1 ⟨"7 × 8", 56, true, some 2, some "B", 0⟩ 1000000 []) :=
  getQuestion_never_rotates_won 1000000 7 ⟨"1 + 1", 2⟩
    ⟨[], [(1, ⟨"7 × 8", 56, true, some 2, some "B", 0⟩)]⟩ 1
    ⟨"7 × 8", 56, true, some 2, some "B", 0⟩ (by decide) (by decide)

theorem findActiveLatest_mem (qs : Table QuestionRec) (e : Nat × QuestionRec)
    (h : findActiveLatest qs = some e) : e ∈ qs := by
  have hgen : ∀ (l : Table QuestionRec) (acc : Option (Nat × QuestionRec)),
      l.foldl pickLater acc = some e → acc = some e ∨ e ∈ l := by
    intro l
    induction l with
    | nil => intro acc hh; exact Or.inl hh
    | cons x xs ih =>
      intro acc hh
      rcases ih (pickLater acc x) hh with hx | hx
      · cases acc with
        | none =>
          have hxe : x = e := Option.some.inj hx
          exact Or.inr (hxe ▸ List.mem_cons_self x xs)
        | some b =>
          by_cases hlt : b.2.createdAt < x.2.createdAt
          · rw [show pickLater (some b) x = some x from by simp [pickLater, hlt]] at hx
            have hxe : x = e := Option.some.inj hx
            exact Or.inr (hxe ▸ List.mem_cons_self x xs)
          · rw [show pickLater (some b) x = some b from by simp [pickLater, hlt]] at hx
            exact Or.inl hx
      · exact Or.inr (List.mem_cons_of_mem _ hx)
  rcases hgen (qs.filter (fun e => e.2.isActive)) none h with hx | hx
  · exact absurd hx (by simp)
  · exact List.mem_of_mem_filter hx

theorem lookupId_isSome_of_mem {α : Type} (tbl : Table α) (k : Nat) (v : α)
    (h : (k, v) ∈ tbl) : ∃ w, lookupId tbl k = some w := by
  induction tbl with
  | nil => simp at h
  | cons e tl ih =>
    obtain ⟨k2, v2⟩ := e
    by_cases hk : k2 = k
    · subst hk
      exact ⟨v2, lookupId_cons_self k2 v2 tl⟩
    · rcases List.mem_cons.mp h with heq | hmem
      · exact absurd (congrArg Prod.fst heq).symm hk
      · obtain ⟨w, hw⟩ := ih hmem
        exact ⟨w, (lookupId_cons_ne k2 k v2 tl hk).trans hw⟩

/-- C5 (counterexample): a winnerless active question inspected at
exactly age 60000 ms is *not* rotated — the handler's comparison is the
strict `Date.now() - createdAt > QUESTION_TIMEOUT_MS`, so "age ≥ timeout
rotates" fails at the boundary. -/
theorem getQuestion_no_rotation_at_exact_timeout :
    getQuestion 60000 7 ⟨"1 + 1", 2⟩
        ⟨[], [(1, ⟨"7 × 8", 56, true, none, none, 0⟩)]⟩ =
      (⟨[], [(1, ⟨"7 × 8", 56, true, none, none, 0⟩)]⟩,
       mkSnapshot 1 ⟨"7 × 8", 56, true, none, none, 0⟩ 60000 []) ∧
    (60000 : Int) - 0 ≥ QUESTION_TIMEOUT_MS := by
  constructor <;> decide

/-- C5 (amended): when the newest active question has no winner and its
age strictly exceeds 60000 ms, the same `GET /question` call retires it
(`isActive := false`), creates a fresh active successor timestamped `now`,
and serves that successor; at age exactly 60000 ms nothing rotates (see the
counterexample). -/
theorem getQuestion_rotates_past_timeout (now : Int) (freshId : Nat)
    (gq : GeneratedQuestion) (db : DB) (qid : Nat) (q : QuestionRec)
    (hfind : findActiveLatest db.questions = some (qid, q))
    (hwin : q.winnerId = none)
    (hage : now - q.createdAt > QUESTION_TIMEOUT_MS)
    (hfresh : lookupId db.questions freshId = none) :
    lookupId (getQuestion now freshId gq db).1.questions qid =
      (lookupId db.questions qid).map (fun qq => { qq with isActive := false }) ∧
    lookupId (getQuestion now freshId gq db).1.questions freshId =
      some ⟨gq.text, gq.answer, true, none, none, now⟩ ∧
    (getQuestion now freshId gq db).2 =
      mkSnapshot freshId ⟨gq.text, gq.answer, true, none, none, now⟩ now db.players := by
  have hred : getQuestion now freshId gq db =
      ({ db with questions :=
           updateId db.questions qid (fun qq => { qq with isActive := false })
             ++ [(freshId, ⟨gq.text, gq.answer, true, none, none, now⟩)] },
       mkSnapshot freshId ⟨gq.text, gq.answer, true, none, none, now⟩ now
         db.players) := by
    simp [getQuestion, hfind, hwin, hage]
  rw [hred]
  refine ⟨?_, ?_, rfl⟩
  · obtain ⟨w, hw⟩ := lookupId_isSome_of_mem db.questions qid q
      (findActiveLatest_mem _ _ hfind)
    rw [lookupId_append, lookupId_updateId, if_pos rfl, hw]
    rfl
  · have hupd : lookupId (updateId db.questions qid
        (fun qq => { qq with isActive := false })) freshId = none := by
      rw [lookupId_updateId]
      by_cases hq : qid = freshId
      · rw [if_pos hq, hfresh]; rfl
      · rw [if_neg hq, hfresh]
    rw [lookupId_append, hupd]
    rw [Option.none_or]
    exact lookupId_cons_self freshId _ []

/-- Witness for C5 (amended): a winnerless question created at 0 inspected
at 60001 ms is retired and its fresh successor (id 7) is served. -/
theorem getQuestion_rotates_past_timeout_witness :
    (lookupId (getQuestion 60001 7 ⟨"1 + 1", 2⟩
        ⟨[], [(1, ⟨"7 × 8", 56, true, none, none, 0⟩)]⟩).1.questions 1 =
      (lookupId [(1, (⟨"7 × 8", 56, true, none, none, 0⟩ : QuestionRec))] 1).map
        (fun qq => { qq with isActive := false }) ∧
    lookupId (getQuestion 60001 7 ⟨"1 + 1", 2⟩
        ⟨[], [(1, ⟨"7 × 8", 56, true, none, none, 0⟩)]⟩).1.questions 7 =
      some ⟨"1 + 1", 2, true, none, none, 60001⟩ ∧
    (getQuestion 60001 7 ⟨"1 + 1", 2⟩
        ⟨[], [(1, ⟨"7 × 8", 56, true, none, none, 0⟩)]⟩).2 =
      mkSnapshot 7 ⟨"1 + 1", 2, true, none, none, 60001⟩ 60001 []) :=
  getQuestion_rotates_past_timeout 60001 7 ⟨"1 + 1", 2⟩
    ⟨[], [(1, ⟨"7 × 8", 56, true, none, none, 0⟩)]⟩ 1
    ⟨"7 × 8", 56, true, none, none, 0⟩ (by decide) (by decide) (by decide) (by decide)

/-! ### C4 — the outcome taxonomy of `POST /answer` -/

/-- C4 (counterexample): a request with the correct value for an
active, unclaimed question but an unknown `playerId` yields the
`404 Player not found` outcome — a seventh outcome distinct from every one
of the six listed ones, reached after the wrong-answer check. -/
theorem submitAnswer_seventh_outcome :
    (submitAnswer (some 9) (some 1) (some 56)
        ⟨[], [(1, ⟨"7 × 8", 56, true, none, none, 0⟩)]⟩).2 =
      AnswerOutcome.playerNotFound ∧
    AnswerOutcome.playerNotFound ≠ AnswerOutcome.questionNotFound ∧
    AnswerOutcome.playerNotFound ≠ AnswerOutcome.inactive ∧
    AnswerOutcome.playerNotFound ≠ AnswerOutcome.alreadyWon ∧
    AnswerOutcome.playerNotFound ≠ AnswerOutcome.wrongAnswer ∧
    AnswerOutcome.playerNotFound ≠ AnswerOutcome.tooLate ∧
    AnswerOutcome.playerNotFound ≠ AnswerOutcome.win := by
  refine ⟨?_, ?_, ?_, ?_, ?_, ?_, ?_⟩ <;> decide

/-- C4 (amended): `POST /answer` returns exactly one outcome drawn from
the six listed ones *plus* `400 bad request` (missing field / non-numeric
answer) and `404 player not found`; the checks short-circuit in the order
question-not-found, inactive, already-won, wrong-answer, player-not-found,
then the atomic claim decides too-late versus win — and with no concurrent
writer the claim never fails, so `tooLate` is unreachable sequentially. -/
theorem submitAnswer_outcome_order (pid qid : Nat) (ans : Int) (db : DB)
    (q : QuestionRec) (hq : lookupId db.questions qid = some q) :
    (q.isActive = false →
      (submitAnswer (some pid) (some qid) (some ans) db).2 =
        AnswerOutcome.inactive) ∧
    (q.isActive = true → q.winnerId ≠ none →
      (submitAnswer (some pid) (some qid) (some ans) db).2 =
        AnswerOutcome.alreadyWon) ∧
    (q.isActive = true → q.winnerId = none → ans ≠ q.answer →
      (submitAnswer (some pid) (some qid) (some ans) db).2 =
        AnswerOutcome.wrongAnswer) ∧
    (q.isActive = true → q.winnerId = none → ans = q.answer →
      lookupId db.players pid = none →
      (submitAnswer (some pid) (some qid) (some ans) db).2 =
        AnswerOutcome.playerNotFound) ∧
    (∀ player, q.isActive = true → q.winnerId = none → ans = q.answer →
      lookupId db.players pid = some player →
      (submitAnswer (some pid) (some qid) (some ans) db).2 =
        AnswerOutcome.win) ∧
    (submitAnswer (some pid) (some qid) (some ans) db).2 ≠
      AnswerOutcome.tooLate ∧
    (submitAnswer (some pid) (some qid) (some ans) db).2 ≠
      AnswerOutcome.badRequest ∧
    (∀ (db2 : DB) (pid2 qid2 : Nat) (ans2 : Int),
      lookupId db2.questions qid2 = none →
      (submitAnswer (some pid2) (some qid2) (some ans2) db2).2 =
        AnswerOutcome.questionNotFound) ∧
    (∀ (db2 : DB) (i : Option Nat) (a : Option Int),
      (submitAnswer none i a db2).2 = AnswerOutcome.badRequest) ∧
    (∀ (db2 : DB) (pd : Option Nat) (a : Option Int),
      (submitAnswer pd none a db2).2 = AnswerOutcome.badRequest) ∧
    (∀ (db2 : DB) (pd qd : Option Nat),
      (submitAnswer pd qd none db2).2 = AnswerOutcome.badRequest) := by
  have hsplit : ∀ P : AnswerOutcome → Prop,
      (q.isActive = false → P AnswerOutcome.inactive) →
      (∀ w, q.isActive = true → q.winnerId = some w → P AnswerOutcome.alreadyWon) →
      (q.isActive = true → q.winnerId = none → ans ≠ q.answer →
        P AnswerOutcome.wrongAnswer) →
      (q.isActive = true → q.winnerId = none → ans = q.answer →
        lookupId db.players pid = none → P AnswerOutcome.playerNotFound) →
      (∀ player, q.isActive = true → q.winnerId = none → ans = q.answer →
        lookupId db.players pid = some player → P AnswerOutcome.win) →
      P (submitAnswer (some pid) (some qid) (some ans) db).2 := by
    intro P hin halw hwr hpn hwin
    cases hA : q.isActive with
    | false => simpa [submitAnswer, hq, hA] using hin hA
    | true =>
      cases hW : q.winnerId with
      | some w => simpa [submitAnswer, hq, hA, hW] using halw w hA hW
      | none =>
        by_cases hans : ans = q.answer
        · cases hP : lookupId db.players pid with
          | none => simpa [submitAnswer, hq, hA, hW, hans, hP] using hpn hA hW hans hP
          | some player =>
            simpa [submitAnswer, hq, hA, hW, hans, hP, claimQuestion] using
              hwin player hA hW hans hP
        · simpa [submitAnswer, hq, hA, hW, hans] using hwr hA hW hans
  refine ⟨?_, ?_, ?_, ?_, ?_, ?_, ?_, ?_, ?_, ?_, ?_⟩
  · intro hA
    simp [submitAnswer, hq, hA]
  · intro hA hW
    cases hW2 : q.winnerId with
    | none => exact absurd hW2 hW
    | some w => simp [submitAnswer, hq, hA, hW2]
  · intro hA hW hans
    simp [submitAnswer, hq, hA, hW, hans]
  · intro hA hW hans hP
    simp [submitAnswer, hq, hA, hW, hans, hP]
  · intro player hA hW hans hP
    simp [submitAnswer, hq, hA, hW, hans, hP, claimQuestion]
  · exact hsplit (fun o => o ≠ AnswerOutcome.tooLate)
      (fun _ => by decide) (fun _ _ _ => by decide) (fun _ _ _ => by decide)
      (fun _ _ _ _ => by decide) (fun _ _ _ _ _ => by decide)
  · exact hsplit (fun o => o ≠ AnswerOutcome.badRequest)
      (fun _ => by decide) (fun _ _ _ => by decide) (fun _ _ _ => by decide)
      (fun _ _ _ _ => by decide) (fun _ _ _ _ _ => by decide)
  · intro db2 pid2 qid2 ans2 hq2
    simp [submitAnswer, hq2]
  · intro db2 i a
    cases i <;> cases a <;> rfl
  · intro db2 pd a
    cases pd <;> cases a <;> rfl
  · intro db2 pd qd
    cases pd <;> cases qd <;> rfl

/-- Witness for C4 (amended) at a concrete state: an active unclaimed
question with answer 56 and a registered player 3. -/
theorem submitAnswer_outcome_order_witness :
    ((⟨"7 × 8", 56, true, none, none, 0⟩ : QuestionRec).isActive = false →
      (submitAnswer (some 3) (some 1) (some 55)
          ⟨[(3, ⟨"A", 0, 0⟩)], [(1, ⟨"7 × 8", 56, true, none, none, 0⟩)]⟩).2 =
        AnswerOutcome.inactive) ∧
    ((⟨"7 × 8", 56, true, none, none, 0⟩ : QuestionRec).isActive = true →
      (⟨"7 × 8", 56, true, none, none, 0⟩ : QuestionRec).winnerId ≠ none →
      (submitAnswer (some 3) (some 1) (some 55)
          ⟨[(3, ⟨"A", 0, 0⟩)], [(1, ⟨"7 × 8", 56, true, none, none, 0⟩)]⟩).2 =
        AnswerOutcome.alreadyWon) ∧
    ((⟨"7 × 8", 56, true, none, none, 0⟩ : QuestionRec).isActive = true →
      (⟨"7 × 8", 56, true, none, none, 0⟩ : QuestionRec).winnerId = none →
      (55 : Int) ≠ (⟨"7 × 8", 56, true, none, none, 0⟩ : QuestionRec).answer →
      (submitAnswer (some 3) (some 1) (some 55)
          ⟨[(3, ⟨"A", 0, 0⟩)], [(1, ⟨"7 × 8", 56, true, none, none, 0⟩)]⟩).2 =
        AnswerOutcome.wrongAnswer) ∧
    ((⟨"7 × 8", 56, true, none, none, 0⟩ : QuestionRec).isActive = true →
      (⟨"7 × 8", 56, true, none, none, 0⟩ : QuestionRec).winnerId = none →
      (55 : Int) = (⟨"7 × 8", 56, true, none, none, 0⟩ : QuestionRec).answer →
      lookupId [(3, (⟨"A", 0, 0⟩ : PlayerRec))] 3 = none →
      (submitAnswer (some 3) (some 1) (some 55)
          ⟨[(3, ⟨"A", 0, 0⟩)], [(1, ⟨"7 × 8", 56, true, none, none, 0⟩)]⟩).2 =
        AnswerOutcome.playerNotFound) ∧
    (∀ player, (⟨"7 × 8", 56, true, none, none, 0⟩ : QuestionRec).isActive = true →
      (⟨"7 × 8", 56, true, none, none, 0⟩ : QuestionRec).winnerId = none →
      (55 : Int) = (⟨"7 × 8", 56, true, none, none, 0⟩ : QuestionRec).answer →
      lookupId [(3, (⟨"A", 0, 0⟩ : PlayerRec))] 3 = some player →
      (submitAnswer (some 3) (some 1) (some 55)
          ⟨[(3, ⟨"A", 0, 0⟩)], [(1, ⟨"7 × 8", 56, true, none, none, 0⟩)]⟩).2 =
        AnswerOutcome.win) ∧
    (submitAnswer (some 3) (some 1) (some 55)
        ⟨[(3, ⟨"A", 0, 0⟩)], [(1, ⟨"7 × 8", 56, true, none, none, 0⟩)]⟩).2 ≠
      AnswerOutcome.tooLate ∧
    (submitAnswer (some 3) (some 1) (some 55)
        ⟨[(3, ⟨"A", 0, 0⟩)], [(1, ⟨"7 × 8", 56, true, none, none, 0⟩)]⟩).2 ≠
      AnswerOutcome.badRequest ∧
    (∀ (db2 : DB) (pid2 qid2 : Nat) (ans2 : Int),
      lookupId db2.questions qid2 = none →
      (submitAnswer (some pid2) (some qid2) (some ans2) db2).2 =
        AnswerOutcome.questionNotFound) ∧
    (∀ (db2 : DB) (i : Option Nat) (a : Option Int),
      (submitAnswer none i a db2).2 = AnswerOutcome.badRequest) ∧
    (∀ (db2 : DB) (pd : Option Nat) (a : Option Int),
      (submitAnswer pd none a db2).2 = AnswerOutcome.badRequest) ∧
    (∀ (db2 : DB) (pd qd : Option Nat),
      (submitAnswer pd qd none db2).2 = AnswerOutcome.badRequest) :=
  submitAnswer_outcome_order 3 1 55
    ⟨[(3, ⟨"A", 0, 0⟩)], [(1, ⟨"7 × 8", 56, true, none, none, 0⟩)]⟩
    ⟨"7 × 8", 56, true, none, none, 0⟩ (by decide)

/-! ### C8 — a wrong answer performs no write -/

/-- C8: a `SubmitAnswer` whose value differs from the stored answer
never mutates the store — the single call leaves the state unchanged, and
so does any number of repetitions of it. -/
theorem submitAnswer_wrong_answer_no_write (pid qid : Nat) (v : Int) (db : DB)
    (q : QuestionRec) (hq : lookupId db.questions qid = some q)
    (hv : v ≠ q.answer) :
    (submitAnswer (some pid) (some qid) (some v) db).1 = db ∧
    (∀ n : Nat,
      (fun d => (submitAnswer (some pid) (some qid) (some v) d).1)^[n] db = db) := by
  have h1 : (submitAnswer (some pid) (some qid) (some v) db).1 = db := by
    cases hA : q.isActive with
    | false => simp [submitAnswer, hq, hA]
    | true =>
      cases hW : q.winnerId with
      | some w => simp [submitAnswer, hq, hA, hW]
      | none => simp [submitAnswer, hq, hA, hW, hv]
  refine ⟨h1, ?_⟩
  intro n
  induction n with
  | zero => rfl
  | succ m ih =>
    rw [Function.iterate_succ_apply, h1, ih]

/-- Witness for C8: submitting 55 against the question `7 × 8 = 56`. -/
theorem submitAnswer_wrong_answer_no_write_witness :
    ((submitAnswer (some 3) (some 1) (some 55)
        ⟨[(3, ⟨"A", 0, 0⟩)], [(1, ⟨"7 × 8", 56, true, none, none, 0⟩)]⟩).1 =
      ⟨[(3, ⟨"A", 0, 0⟩)], [(1, ⟨"7 × 8", 56, true, none, none, 0⟩)]⟩ ∧
    (∀ n : Nat,
      (fun d => (submitAnswer (some 3) (some 1) (some 55) d).1)^[n]
          ⟨[(3, ⟨"A", 0, 0⟩)], [(1, ⟨"7 × 8", 56, true, none, none, 0⟩)]⟩ =
        ⟨[(3, ⟨"A", 0, 0⟩)], [(1, ⟨"7 × 8", 56, true, none, none, 0⟩)]⟩)) :=
  submitAnswer_wrong_answer_no_write 3 1 55
    ⟨[(3, ⟨"A", 0, 0⟩)], [(1, ⟨"7 × 8", 56, true, none, none, 0⟩)]⟩
    ⟨"7 × 8", 56, true, none, none, 0⟩ (by decide) (by decide)

/-! ### C9 — nothing writes `highScore` after creation -/

theorem submitAnswer_cases (pid? qid? : Option Nat) (ans? : Option Int) (db : DB) :
    ((submitAnswer pid? qid? ans? db).1 = db ∧
     (submitAnswer pid? qid? ans? db).2 ≠ AnswerOutcome.win) ∨
    (∃ pid qid q player q2, pid? = some pid ∧ qid? = some qid ∧
      lookupId db.questions qid = some q ∧ lookupId db.players pid = some player ∧
      claimQuestion pid player.username q = some q2 ∧
      submitAnswer pid? qid? ans? db =
        ({ players := updateId db.players pid
             (fun pl => { pl with score := pl.score + 1 }),
           questions := updateId db.questions qid (fun _ => q2) },
         AnswerOutcome.win)) := by
  cases pid? with
  | none => cases qid? <;> cases ans? <;> exact Or.inl ⟨rfl, by simp [submitAnswer]⟩
  | some pid =>
  cases qid? with
  | none => cases ans? <;> exact Or.inl ⟨rfl, by simp [submitAnswer]⟩
  | some qid =>
  cases ans? with
  | none => exact Or.inl ⟨rfl, by simp [submitAnswer]⟩
  | some ans =>
  cases hq : lookupId db.questions qid with
  | none => exact Or.inl ⟨by simp [submitAnswer, hq], by simp [submitAnswer, hq]⟩
  | some q =>
  cases hA : q.isActive with
  | false =>
    exact Or.inl ⟨by simp [submitAnswer, hq, hA], by simp [submitAnswer, hq, hA]⟩
  | true =>
  cases hW : q.winnerId with
  | some w =>
    exact Or.inl ⟨by simp [submitAnswer, hq, hA, hW], by simp [submitAnswer, hq, hA, hW]⟩
  | none =>
  by_cases hans : ans = q.answer
  · cases hP : lookupId db.players pid with
    | none =>
      exact Or.inl ⟨by simp [submitAnswer, hq, hA, hW, hans, hP],
        by simp [submitAnswer, hq, hA, hW, hans, hP]⟩
    | some player =>
      have hc : claimQuestion pid player.username q =
          some { q with winnerId := some pid, winnerName := some player.username } := by
        simp [claimQuestion, hW, hA]
      exact Or.inr ⟨pid, qid, q, player, _, rfl, rfl, hq, hP, hc,
        by simp [submitAnswer, hq, hA, hW, hans, hP, hc]⟩
  · exact Or.inl ⟨by simp [submitAnswer, hq, hA, hW, hans],
      by simp [submitAnswer, hq, hA, hW, hans]⟩

/-- C9: the win path of `POST /answer` increments only the winner's
`score` and never touches `highScore` or `username`; any non-winning call
performs no write at all; both join variants preserve every existing
player's `highScore` and `username`; and the question-route inspection, the
delayed rotation and the leaderboard read never write the players table —
so no kernel operation writes `highScore` after the record is created. -/
theorem kernel_never_writes_highScore (pid? qid? : Option Nat) (ans? : Option Int)
    (db : DB) :
    (∀ i pl, lookupId db.players i = some pl →
      ∃ pl2, lookupId (submitAnswer pid? qid? ans? db).1.players i = some pl2 ∧
        pl2.highScore = pl.highScore ∧ pl2.username = pl.username) ∧
    ((submitAnswer pid? qid? ans? db).2 ≠ AnswerOutcome.win →
      (submitAnswer pid? qid? ans? db).1 = db) ∧
    (∀ u fid i pl, lookupId db.players i = some pl →
      ∃ pl2, lookupId (joinReset u fid db.players).1 i = some pl2 ∧
        pl2.highScore = pl.highScore ∧ pl2.username = pl.username) ∧
    (∀ u fid i pl, lookupId db.players i = some pl →
      ∃ pl2, lookupId (joinNoReset u fid db.players).1 i = some pl2 ∧
        pl2.highScore = pl.highScore ∧ pl2.username = pl.username) ∧
    (∀ now fid gq, (getQuestion now fid gq db).1.players = db.players) ∧
    (∀ qid2 fid gq now, (rotateAfterWin qid2 fid gq now db).players = db.players) ∧
    (getLeaderboard db).1 = db := by
  refine ⟨?_, ?_, ?_, ?_, ?_, fun _ _ _ _ => rfl, rfl⟩
  · intro i pl h
    rcases submitAnswer_cases pid? qid? ans? db with ⟨hdb, _⟩ | hwin
    · rw [hdb]
      exact ⟨pl, h, rfl, rfl⟩
    · obtain ⟨pid, qid, q, player, q2, hp, hqd, hq, hP, hc, heq⟩ := hwin
      rw [heq]
      simp only [lookupId_updateId]
      by_cases hpi : pid = i
      · rw [if_pos hpi, h]
        exact ⟨{ pl with score := pl.score + 1 }, rfl, rfl, rfl⟩
      · rw [if_neg hpi]
        exact ⟨pl, h, rfl, rfl⟩
  · intro hne
    rcases submitAnswer_cases pid? qid? ans? db with ⟨hdb, _⟩ | hwin
    · exact hdb
    · obtain ⟨pid, qid, q, player, q2, hp, hqd, hq, hP, hc, heq⟩ := hwin
      exact absurd (by rw [heq]) hne
  · intro u fid i pl h
    cases u with
    | none => exact ⟨pl, h, rfl, rfl⟩
    | some v =>
      by_cases hvt : (strTrim v).length = 0
      · have hr : (joinReset (some v) fid db.players).1 = db.players := by
          simp [joinReset, hvt]
        rw [hr]
        exact ⟨pl, h, rfl, rfl⟩
      · cases hf : db.players.find? (fun e => e.2.username == trimmedName v) with
        | some e =>
          obtain ⟨pid2, p2⟩ := e
          have hr : (joinReset (some v) fid db.players).1 =
              updateId db.players pid2 (fun pl => { pl with score := 0 }) := by
            simp [joinReset, hvt, hf]
          rw [hr, lookupId_updateId]
          by_cases hpi : pid2 = i
          · rw [if_pos hpi, h]
            exact ⟨{ pl with score := 0 }, rfl, rfl, rfl⟩
          · rw [if_neg hpi]
            exact ⟨pl, h, rfl, rfl⟩
        | none =>
          have hr : (joinReset (some v) fid db.players).1 =
              db.players ++ [(fid, ⟨trimmedName v, 0, 0⟩)] := by
            simp [joinReset, hvt, hf]
          rw [hr, lookupId_append, h]
          exact ⟨pl, rfl, rfl, rfl⟩
  · intro u fid i pl h
    cases u with
    | none => exact ⟨pl, h, rfl, rfl⟩
    | some v =>
      by_cases hvt : (strTrim v).length = 0
      · have hr : (joinNoReset (some v) fid db.players).1 = db.players := by
          simp [joinNoReset, hvt]
        rw [hr]
        exact ⟨pl, h, rfl, rfl⟩
      · cases hf : db.players.find? (fun e => e.2.username == trimmedName v) with
        | some e =>
          obtain ⟨pid2, p2⟩ := e
          have hr : (joinNoReset (some v) fid db.players).1 = db.players := by
            simp [joinNoReset, hvt, hf]
          rw [hr]
          exact ⟨pl, h, rfl, rfl⟩
        | none =>
          have hr : (joinNoReset (some v) fid db.players).1 =
              db.players ++ [(fid, ⟨trimmedName v, 0, 0⟩)] := by
            simp [joinNoReset, hvt, hf]
          rw [hr, lookupId_append, h]
          exact ⟨pl, rfl, rfl, rfl⟩
  · intro now fid gq
    cases hf : findActiveLatest db.questions with
    | none => simp [getQuestion, hf]
    | some e =>
      obtain ⟨qid, q⟩ := e
      by_cases hc : q.winnerId = none ∧ now - q.createdAt > QUESTION_TIMEOUT_MS
      · simp [getQuestion, hf, hc]
      · simp [getQuestion, hf, hc]

/-! ### C1 — at most one winner under concurrent submissions -/

theorem winnerish_false_isDoneWin (pr : SubProc) (h : winnerish pr.phase = false) :
    isDoneWin pr = false := by
  unfold winnerish at h
  unfold isDoneWin
  cases hph : pr.phase <;> rw [hph] at h <;> simp_all

theorem batchInv_set_frame (s0 : Nat → Nat) (st : BatchState) (i : Nat)
    (pr pr2 : SubProc) (hpr : st.procs[i]? = some pr)
    (hw1 : winnerish pr.phase = false) (hw2 : winnerish pr2.phase = false)
    (h : BatchInv s0 st) :
    BatchInv s0 { st with procs := st.procs.set i pr2 } := by
  obtain ⟨ha, hb, hb2, hc⟩ := h
  have hd1 : isDoneWin pr = false := winnerish_false_isDoneWin pr hw1
  have hd2 : isDoneWin pr2 = false := winnerish_false_isDoneWin pr2 hw2
  have e1 : winnerishB pr = false := by unfold winnerishB; rw [hw1]
  have e2 : winnerishB pr2 = false := by unfold winnerishB; rw [hw2]
  have hcw := countP_set_of_get winnerishB st.procs i pr pr2 hpr
  rw [e1, e2] at hcw
  simp only [Bool.false_eq_true, if_false, Nat.add_zero] at hcw
  refine ⟨?_, ?_, ?_, ?_⟩
  · intro x hx hwx
    rcases List.mem_or_eq_of_mem_set hx with hold | rfl
    · exact ha x hold hwx
    · exact absurd hwx (by simp [hw2])
  · show (st.procs.set i pr2).countP winnerishB ≤ 1
    omega
  · intro hn
    show (st.procs.set i pr2).countP winnerishB = 0
    have := hb2 hn
    omega
  · intro p
    have f1 : isDoneWinFor p pr = false := by
      unfold isDoneWinFor
      rw [hd1]
      rfl
    have f2 : isDoneWinFor p pr2 = false := by
      unfold isDoneWinFor
      rw [hd2]
      rfl
    have hcd := countP_set_of_get (isDoneWinFor p) st.procs i pr pr2 hpr
    rw [f1, f2] at hcd
    simp only [Bool.false_eq_true, if_false, Nat.add_zero] at hcd
    show st.scores p = s0 p + (st.procs.set i pr2).countP (isDoneWinFor p)
    have := hc p
    omega

theorem stepProc_inv (s0 : Nat → Nat) (st : BatchState) (i : Nat)
    (h : BatchInv s0 st) : BatchInv s0 (stepProc st i) := by
  cases hpr : st.procs[i]? with
  | none =>
    have hred : stepProc st i = st := by simp [stepProc, hpr]
    rw [hred]; exact h
  | some pr =>
  cases hph : pr.phase with
  | start =>
    by_cases hA : st.q.isActive = false
    · have hred : stepProc st i =
          { st with procs := st.procs.set i { pr with phase := SubPhase.doneInactive } } := by
        simp [stepProc, hpr, hph, hA]
      rw [hred]
      exact batchInv_set_frame s0 st i pr _ hpr (by rw [hph]; rfl) rfl h
    · by_cases hW : st.q.winnerId = none
      · by_cases hv : pr.value = st.q.answer
        · have hred : stepProc st i =
              { st with procs := st.procs.set i { pr with phase := SubPhase.toClaim } } := by
            simp [stepProc, hpr, hph, hA, hW, hv]
          rw [hred]
          exact batchInv_set_frame s0 st i pr _ hpr (by rw [hph]; rfl) rfl h
        · have hred : stepProc st i =
              { st with procs := st.procs.set i { pr with phase := SubPhase.doneWrong } } := by
            simp [stepProc, hpr, hph, hA, hW, hv]
          rw [hred]
          exact batchInv_set_frame s0 st i pr _ hpr (by rw [hph]; rfl) rfl h
      · have hred : stepProc st i =
            { st with procs := st.procs.set i { pr with phase := SubPhase.doneAlreadyWon } } := by
          simp [stepProc, hpr, hph, hA, hW]
        rw [hred]
        exact batchInv_set_frame s0 st i pr _ hpr (by rw [hph]; rfl) rfl h
  | toClaim =>
    cases hcl : claimQuestion pr.pid pr.uname st.q with
    | none =>
      have hred : stepProc st i =
          { st with procs := st.procs.set i { pr with phase := SubPhase.doneTooLate } } := by
        simp [stepProc, hpr, hph, hcl]
      rw [hred]
      exact batchInv_set_frame s0 st i pr _ hpr (by rw [hph]; rfl) rfl h
    | some q2 =>
      have hcond : st.q.winnerId = none ∧ st.q.isActive = true := by
        by_contra hcon
        unfold claimQuestion at hcl
        rw [if_neg hcon] at hcl
        exact Option.noConfusion hcl
      have hq2 : q2 = { st.q with winnerId := some pr.pid, winnerName := some pr.uname } := by
        unfold claimQuestion at hcl
        rw [if_pos hcond] at hcl
        exact (Option.some.inj hcl).symm
      have hred : stepProc st i =
          { st with
              q := q2,
              procs := st.procs.set i { pr with phase := SubPhase.toInc } } := by
        simp [stepProc, hpr, hph, hcl]
      rw [hred]
      obtain ⟨ha, hb, hb2, hc⟩ := h
      have hcount0 : st.procs.countP winnerishB = 0 := hb2 hcond.1
      have hw1 : winnerish pr.phase = false := by rw [hph]; rfl
      have e1 : winnerishB pr = false := by unfold winnerishB; rw [hw1]
      have e2 : winnerishB { pr with phase := SubPhase.toInc } = true := by
        unfold winnerishB; rfl
      have hcw := countP_set_of_get winnerishB st.procs i pr
        { pr with phase := SubPhase.toInc } hpr
      rw [e1, e2] at hcw
      simp only [Bool.false_eq_true, if_false, Nat.add_zero, if_true] at hcw
      refine ⟨?_, ?_, ?_, ?_⟩
      · intro x hx hwx
        rcases List.mem_or_eq_of_mem_set hx with hold | rfl
        · exfalso
          have hnx := List.countP_eq_zero.mp hcount0 x hold
          exact hnx (by unfold winnerishB; rw [hwx])
        · show q2.winnerId = some pr.pid
          rw [hq2]
      · show (st.procs.set i { pr with phase := SubPhase.toInc }).countP winnerishB ≤ 1
        omega
      · intro hn
        exfalso
        rw [show ({ st with
            q := q2,
            procs := st.procs.set i { pr with phase := SubPhase.toInc } } : BatchState).q =
          q2 from rfl, hq2] at hn
        exact Option.noConfusion hn
      · intro p
        have hd1 : isDoneWin pr = false := winnerish_false_isDoneWin pr hw1
        have f1 : isDoneWinFor p pr = false := by
          unfold isDoneWinFor
          rw [hd1]
          rfl
        have f2 : isDoneWinFor p { pr with phase := SubPhase.toInc } = false := by
          unfold isDoneWinFor isDoneWin
          rfl
        have hcd := countP_set_of_get (isDoneWinFor p) st.procs i pr
          { pr with phase := SubPhase.toInc } hpr
        rw [f1, f2] at hcd
        simp only [Bool.false_eq_true, if_false, Nat.add_zero] at hcd
        show st.scores p = s0 p +
          (st.procs.set i { pr with phase := SubPhase.toInc }).countP (isDoneWinFor p)
        have := hc p
        omega
  | toInc =>
    have hred : stepProc st i =
        { st with
            scores := fun p => if p = pr.pid then st.scores p + 1 else st.scores p,
            procs := st.procs.set i { pr with phase := SubPhase.doneWin } } := by
      simp [stepProc, hpr, hph]
    rw [hred]
    obtain ⟨ha, hb, hb2, hc⟩ := h
    have hmem : pr ∈ st.procs := List.getElem?_mem hpr
    have hwid : st.q.winnerId = some pr.pid := ha pr hmem (by rw [hph]; decide)
    have e1 : winnerishB pr = true := by unfold winnerishB; rw [hph]; decide
    have e2 : winnerishB { pr with phase := SubPhase.doneWin } = true := by
      unfold winnerishB; rfl
    have hcw := countP_set_of_get winnerishB st.procs i pr
      { pr with phase := SubPhase.doneWin } hpr
    rw [e1, e2] at hcw
    simp only [if_true] at hcw
    refine ⟨?_, ?_, ?_, ?_⟩
    · intro x hx hwx
      rcases List.mem_or_eq_of_mem_set hx with hold | rfl
      · exact ha x hold hwx
      · exact hwid
    · show (st.procs.set i { pr with phase := SubPhase.doneWin }).countP winnerishB ≤ 1
      omega
    · intro hn
      exfalso
      rw [show ({ st with
          scores := fun p => if p = pr.pid then st.scores p + 1 else st.scores p,
          procs := st.procs.set i { pr with phase := SubPhase.doneWin } } : BatchState).q =
        st.q from rfl, hwid] at hn
      exact Option.noConfusion hn
    · intro p
      have hd1 : isDoneWin pr = false := by
        unfold isDoneWin
        rw [hph]
      have f1 : isDoneWinFor p pr = false := by
        unfold isDoneWinFor
        rw [hd1]
        rfl
      have f2 : isDoneWinFor p { pr with phase := SubPhase.doneWin } =
          decide (pr.pid = p) := by
        unfold isDoneWinFor isDoneWin
        rfl
      have hcd := countP_set_of_get (isDoneWinFor p) st.procs i pr
        { pr with phase := SubPhase.doneWin } hpr
      rw [f1, f2] at hcd
      simp only [Bool.false_eq_true, if_false, Nat.add_zero] at hcd
      show (fun p => if p = pr.pid then st.scores p + 1 else st.scores p) p =
        s0 p + (st.procs.set i { pr with phase := SubPhase.doneWin }).countP
          (isDoneWinFor p)
      have hcp := hc p
      by_cases hp : p = pr.pid
      · have hdec : decide (pr.pid = p) = true := by simp [hp]
        rw [hdec, if_pos rfl] at hcd
        rw [show (fun p => if p = pr.pid then st.scores p + 1 else st.scores p) p =
            st.scores p + 1 from by simp [hp]]
        omega
      · have hdec : decide (pr.pid = p) = false := by
          simp only [decide_eq_false_iff_not]
          exact fun hh => hp hh.symm
        rw [hdec] at hcd
        simp only [Bool.false_eq_true, if_false, Nat.add_zero] at hcd
        rw [show (fun p => if p = pr.pid then st.scores p + 1 else st.scores p) p =
            st.scores p from by simp [hp]]
        omega
  | doneInactive =>
    have hred : stepProc st i = st := by simp [stepProc, hpr, hph]
    rw [hred]; exact h
  | doneAlreadyWon =>
    have hred : stepProc st i = st := by simp [stepProc, hpr, hph]
    rw [hred]; exact h
  | doneWrong =>
    have hred : stepProc st i = st := by simp [stepProc, hpr, hph]
    rw [hred]; exact h
  | doneTooLate =>
    have hred : stepProc st i = st := by simp [stepProc, hpr, hph]
    rw [hred]; exact h
  | doneWin =>
    have hred : stepProc st i = st := by simp [stepProc, hpr, hph]
    rw [hred]; exact h

theorem runBatch_inv (s0 : Nat → Nat) (sched : List Nat) :
    ∀ st, BatchInv s0 st → BatchInv s0 (runBatch st sched) := by
  induction sched with
  | nil => intro st hinv; exact hinv
  | cons i tl ih =>
    intro st hinv
    exact ih (stepProc st i) (stepProc_inv s0 st i hinv)

theorem winnerishB_of_isDoneWin (pr : SubProc) (h : isDoneWin pr = true) :
    winnerishB pr = true := by
  unfold isDoneWin at h
  unfold winnerishB winnerish
  cases hph : pr.phase <;> rw [hph] at h <;> simp_all

/-- C1: over any interleaving of any number of concurrent
`SubmitAnswer` requests against the same question — every schedule of the
batch machine, from any question state and any set of requests — at most
one request finishes with the `accepted: win` outcome; each player's score
grows by exactly the number of wins credited to them, which is at most one,
so the winning player's score is incremented exactly once; every process
that finished with a win is the recorded `winnerId`; and the win is decided
solely by the atomic conditional update, which succeeds exactly when
`winnerId` is still unset and the question is still active. -/
theorem submitAnswer_at_most_one_winner (q0 : QuestionRec) (s0 : Nat → Nat)
    (procs0 : List SubProc) (sched : List Nat)
    (h0 : ∀ pr ∈ procs0, pr.phase = SubPhase.start) :
    (runBatch ⟨q0, s0, procs0⟩ sched).procs.countP isDoneWin ≤ 1 ∧
    (∀ p, (runBatch ⟨q0, s0, procs0⟩ sched).scores p =
      s0 p + (runBatch ⟨q0, s0, procs0⟩ sched).procs.countP (isDoneWinFor p)) ∧
    (∀ p, (runBatch ⟨q0, s0, procs0⟩ sched).procs.countP (isDoneWinFor p) ≤ 1) ∧
    (∀ pr ∈ (runBatch ⟨q0, s0, procs0⟩ sched).procs,
      pr.phase = SubPhase.doneWin →
      (runBatch ⟨q0, s0, procs0⟩ sched).q.winnerId = some pr.pid) ∧
    (∀ pid un q, (claimQuestion pid un q).isSome ↔
      (q.winnerId = none ∧ q.isActive = true)) := by
  have hinv0 : BatchInv s0 ⟨q0, s0, procs0⟩ := by
    refine ⟨?_, ?_, ?_, ?_⟩
    · intro pr hm hw
      rw [h0 pr hm] at hw
      exact absurd hw (by decide)
    · have hz : procs0.countP winnerishB = 0 :=
        List.countP_eq_zero.mpr (fun pr hm => by
          unfold winnerishB
          rw [h0 pr hm]
          decide)
      show procs0.countP winnerishB ≤ 1
      omega
    · intro _
      exact List.countP_eq_zero.mpr (fun pr hm => by
        unfold winnerishB
        rw [h0 pr hm]
        decide)
    · intro p
      have hz : procs0.countP (isDoneWinFor p) = 0 :=
        List.countP_eq_zero.mpr (fun pr hm => by
          unfold isDoneWinFor isDoneWin
          rw [h0 pr hm]
          simp)
      show s0 p = s0 p + procs0.countP (isDoneWinFor p)
      omega
  obtain ⟨ha, hb, hb2, hc⟩ := runBatch_inv s0 sched ⟨q0, s0, procs0⟩ hinv0
  refine ⟨?_, hc, ?_, ?_, ?_⟩
  · calc (runBatch ⟨q0, s0, procs0⟩ sched).procs.countP isDoneWin
        ≤ (runBatch ⟨q0, s0, procs0⟩ sched).procs.countP winnerishB :=
          List.countP_mono_left (fun pr _ => winnerishB_of_isDoneWin pr)
      _ ≤ 1 := hb
  · intro p
    calc (runBatch ⟨q0, s0, procs0⟩ sched).procs.countP (isDoneWinFor p)
        ≤ (runBatch ⟨q0, s0, procs0⟩ sched).procs.countP winnerishB :=
          List.countP_mono_left (fun pr _ hdw => winnerishB_of_isDoneWin pr
            (by
              unfold isDoneWinFor at hdw
              exact (Bool.and_eq_true_iff.mp hdw).1))
      _ ≤ 1 := hb
  · intro pr hm hph
    exact ha pr hm (by rw [hph]; decide)
  · intro pid un q
    unfold claimQuestion
    by_cases hcond : q.winnerId = none ∧ q.isActive = true
    · rw [if_pos hcond]
      simpa using hcond
    · rw [if_neg hcond]
      simpa using hcond

/-- Witness for C1: players 1 and 2 both race the correct answer 56 on the
question `7 × 8`; under the alternating schedule the first claim wins, the
second observes "too late", and only player 1's score is incremented. -/
theorem submitAnswer_at_most_one_winner_witness :
    ((runBatch ⟨⟨"7 × 8", 56, true, none, none, 0⟩, fun _ => 0,
        [⟨1, "A", 56, SubPhase.start⟩, ⟨2, "B", 56, SubPhase.start⟩]⟩
        [0, 1, 0, 1, 0, 1]).procs.countP isDoneWin ≤ 1 ∧
    (∀ p, (runBatch ⟨⟨"7 × 8", 56, true, none, none, 0⟩, fun _ => 0,
        [⟨1, "A", 56, SubPhase.start⟩, ⟨2, "B", 56, SubPhase.start⟩]⟩
        [0, 1, 0, 1, 0, 1]).scores p =
      (fun _ => 0) p + (runBatch ⟨⟨"7 × 8", 56, true, none, none, 0⟩, fun _ => 0,
        [⟨1, "A", 56, SubPhase.start⟩, ⟨2, "B", 56, SubPhase.start⟩]⟩
        [0, 1, 0, 1, 0, 1]).procs.countP (isDoneWinFor p)) ∧
    (∀ p, (runBatch ⟨⟨"7 × 8", 56, true, none, none, 0⟩, fun _ => 0,
        [⟨1, "A", 56, SubPhase.start⟩, ⟨2, "B", 56, SubPhase.start⟩]⟩
        [0, 1, 0, 1, 0, 1]).procs.countP (isDoneWinFor p) ≤ 1) ∧
    (∀ pr ∈ (runBatch ⟨⟨"7 × 8", 56, true, none, none, 0⟩, fun _ => 0,
        [⟨1, "A", 56, SubPhase.start⟩, ⟨2, "B", 56, SubPhase.start⟩]⟩
        [0, 1, 0, 1, 0, 1]).procs,
      pr.phase = SubPhase.doneWin →
      (runBatch ⟨⟨"7 × 8", 56, true, none, none, 0⟩, fun _ => 0,
        [⟨1, "A", 56, SubPhase.start⟩, ⟨2, "B", 56, SubPhase.start⟩]⟩
        [0, 1, 0, 1, 0, 1]).q.winnerId = some pr.pid) ∧
    (∀ pid un q, (claimQuestion pid un q).isSome ↔
      (q.winnerId = none ∧ q.isActive = true))) :=
  submitAnswer_at_most_one_winner ⟨"7 × 8", 56, true, none, none, 0⟩ (fun _ => 0)
    [⟨1, "A", 56, SubPhase.start⟩, ⟨2, "B", 56, SubPhase.start⟩]
    [0, 1, 0, 1, 0, 1] (by decide)
